import Mathlib

/-!
Verification of the policy-enforcement and relay core of the
openziti-remote-maintenance edge agent (`src/edge-agent/edge_agent.py`).

The embedding models the pure request-handling logic of the three services
(`ops.exec`, `ops.files`, `ops.forward`): path sandboxing, command
validation, command execution outcomes, the file-store handler over an
explicit file-system state, the forward gate, and the relay engine as a
small-step transition system.  The authenticated transport (openziti) is
outside the model; storage faults the handler can observe (a `makedirs`
walk obstructed by a regular file, reads or writes of a directory path)
are modelled, other I/O faults are not; the subprocess module is
modelled by an explicit environment describing the spawned process's
behaviour.

String primitives are implemented by structural recursion over the
character list of a `String`, so that every definition evaluates inside
the kernel; they mirror the Python `str` operations used by the source.
-/

deriving instance DecidableEq for Except

namespace EdgeAgent

/-! ## String primitives (kernel-computable mirrors of Python str ops) -/

/-- Auxiliary accumulator for `splitChar`. -/
def splitCharAux (sep : Char) : List Char → List Char → List (List Char)
  | [], cur => [cur.reverse]
  | c :: cs, cur =>
    if c = sep then cur.reverse :: splitCharAux sep cs []
    else splitCharAux sep cs (c :: cur)

/-- Split a character list on a separator character; mirrors Python
`str.split(sep)` for a one-character separator (and `String.splitOn`). -/
def splitChar (sep : Char) (l : List Char) : List (List Char) :=
  splitCharAux sep l []

/-- Split a string on `/`; mirrors `p.split("/")` inside `posixpath`. -/
def splitSlash (s : String) : List String :=
  (splitChar '/' s.data).map String.mk

/-- Join strings with `/`; mirrors `"/".join(...)` inside `posixpath`. -/
def joinSlash : List String → String
  | [] => ""
  | [x] => x
  | x :: y :: xs => x ++ "/" ++ joinSlash (y :: xs)

/-- Mirrors Python `s.startswith(pre)`. -/
def strStartsWith (s pre : String) : Bool :=
  pre.data.isPrefixOf s.data

/-- Mirrors Python `s.endswith(suf)`. -/
def strEndsWith (s suf : String) : Bool :=
  suf.data.isSuffixOf s.data

/-- Mirrors Python character-count slicing `s[:n]`. -/
def strTruncate (n : Nat) (s : String) : String :=
  String.mk (s.data.take n)

example : splitSlash "bin/ls" = ["bin", "ls"] := by decide
example : splitSlash "" = [""] := by decide
example : joinSlash ["a", "b", "c"] = "a/b/c" := by decide

/-! ## Path model (posixpath semantics used by the agent) -/

/-- Model of `posixpath.normpath` (used by `os.path.normpath` on POSIX):
collapses `.` and empty components, resolves `..` against previous
components (never above the root for absolute paths), preserves the
special two-leading-slash case. -/
def normpath (p : String) : String :=
  if p = "" then "."
  else
    let initialSlashes : Nat :=
      if strStartsWith p "/" then
        (if strStartsWith p "//" ∧ ¬ strStartsWith p "///" then 2 else 1)
      else 0
    let comps := splitSlash p
    let newComps := comps.foldl (fun acc comp =>
      if comp = "" ∨ comp = "." then acc
      else if comp ≠ ".." ∨ (initialSlashes = 0 ∧ acc = []) ∨ (acc.getLast? = some "..") then
        acc ++ [comp]
      else if acc ≠ [] then acc.dropLast
      else acc) []
    let res := String.mk (List.replicate initialSlashes '/') ++ joinSlash newComps
    if res = "" then "." else res

/-- Model of `posixpath.join` for two components: an absolute second
component replaces the first; otherwise the parts are joined with a
separator unless one is already present. -/
def joinPath (a b : String) : String :=
  if strStartsWith b "/" then b
  else if a = "" ∨ strEndsWith a "/" then a ++ b
  else a ++ "/" ++ b

/-- Model of `posixpath.basename`: the part after the last separator. -/
def basename (p : String) : String :=
  (splitSlash p).getLastD ""

/-- Helper for `dirname`: drop trailing separator characters, mirroring
`head.rstrip("/")`. -/
def rstripSlashes (s : String) : String :=
  String.mk (s.data.reverse.dropWhile (fun c => c = '/')).reverse

/-- Model of `posixpath.dirname`: everything up to the last separator,
with trailing separators stripped unless the head is all separators. -/
def dirname (p : String) : String :=
  let parts := splitSlash p
  if parts.length ≤ 1 then ""
  else
    let head := joinSlash parts.dropLast ++ "/"
    if head.data.all (fun c => c = '/') then head
    else rstripSlashes head

/-- Model of `edge_agent._safe_join`.  The configured base directory is
assumed absolute, so `os.path.abspath(base)` reduces to `normpath base`.
Returns `none` where the source raises `ValueError("path outside base
directory")`. -/
def safe_join (base rel : String) : Option String :=
  let b := normpath base
  let target := normpath (joinPath b rel)
  if strStartsWith target (b ++ "/") ∨ target = b then some target else none

/-- The precondition of the path-traversal claims, exactly as the spec
phrases it: the normalized join of the base directory with the relative
path falls outside the base directory (it is neither the base itself nor
strictly below it). -/
def pathOutside (base rel : String) : Prop :=
  let b := normpath base
  let target := normpath (joinPath b rel)
  ¬ (strStartsWith target (b ++ "/") ∨ target = b)

instance (base rel : String) : Decidable (pathOutside base rel) := by
  unfold pathOutside; infer_instance

example : normpath "/var/local/ops_files/../escape" = "/var/local/escape" := by decide
example : normpath "/var/local/ops_files/a/./b" = "/var/local/ops_files/a/b" := by decide
example : basename "bin/ls" = "ls" := by decide
example : basename "ls" = "ls" := by decide
example : dirname "/var/local/ops_files/a/b.txt" = "/var/local/ops_files/a" := by decide
example : safe_join "/var/local/ops_files" "../escape" = none := by decide
example : safe_join "/var/local/ops_files" "notes/a.txt" =
    some "/var/local/ops_files/notes/a.txt" := by decide
example : safe_join "/var/local/ops_files" "a/../../ops_files2/x" = none := by decide
example : pathOutside "/var/local/ops_files" "../escape" := by decide

/-! ## Base64 (model of `base64.b64encode` / `base64.b64decode`) -/

/-- The standard base64 alphabet. -/
def b64table : List Char :=
  "ABCDEFGHIJKLMNOPQRSTUVWXYZabcdefghijklmnopqrstuvwxyz0123456789+/".data

/-- Character for a six-bit value. -/
def b64charOf (v : Nat) : Char := b64table.getD v 'A'

/-- Six-bit value of an alphabet character, `none` for non-alphabet input. -/
def b64valOf (c : Char) : Option Nat := b64table.findIdx? (fun x => x = c)

/-- Model of `base64.b64encode` at the byte level: three input bytes per
four output characters, `=`-padded at the tail. -/
def b64encodeBytes : List Nat → List Char
  | b1 :: b2 :: b3 :: rest =>
    b64charOf (b1 / 4) :: b64charOf ((b1 % 4) * 16 + b2 / 16) ::
      b64charOf ((b2 % 16) * 4 + b3 / 64) :: b64charOf (b3 % 64) :: b64encodeBytes rest
  | [b1, b2] =>
    [b64charOf (b1 / 4), b64charOf ((b1 % 4) * 16 + b2 / 16), b64charOf ((b2 % 16) * 4), '=']
  | [b1] => [b64charOf (b1 / 4), b64charOf ((b1 % 4) * 16), '=', '=']
  | [] => []

/-- Model of `base64.b64encode(...).decode("ascii")`. -/
def b64encode (bs : List Nat) : String := String.mk (b64encodeBytes bs)

/-- The decoding loop of `binascii.a2b_base64` in non-strict mode, as
called by `base64.b64decode` (default `validate=False`).  `quad` holds
the six-bit values of the current quad and `pads` counts the padding
characters seen at quad position two or beyond since the last data
character.  Characters outside the alphabet and padding are skipped; a
`=` before two data characters of the current quad is ignored; decoding
terminates successfully when the quad position plus the padding count
reaches four (one byte flushed after two data characters and two pads,
two bytes after three data characters and one pad), ignoring all
remaining input; a data character resets the padding count and extends
the quad; leftover data characters at the end of input are a padding
error (`none`, where the source's `except`-guarded call raises). -/
def b64decodeLoop : List Char → List Nat → Nat → Option (List Nat)
  | [], quad, _ => if quad.isEmpty then some [] else none
  | c :: cs, quad, pads =>
    if c = '=' then
      match quad with
      | [v1, v2] =>
        if pads + 1 ≥ 2 then some [v1 * 4 + v2 / 16]
        else b64decodeLoop cs [v1, v2] (pads + 1)
      | [v1, v2, v3] => some [v1 * 4 + v2 / 16, (v2 % 16) * 16 + v3 / 4]
      | _ => b64decodeLoop cs quad pads
    else
      match b64valOf c with
      | none => b64decodeLoop cs quad pads
      | some v =>
        match quad with
        | [v1, v2, v3] =>
          match b64decodeLoop cs [] 0 with
          | some bs =>
            some ((v1 * 4 + v2 / 16) :: ((v2 % 16) * 16 + v3 / 4) :: ((v3 % 4) * 64 + v) :: bs)
          | none => none
        | _ => b64decodeLoop cs (quad ++ [v]) 0

/-- Model of `base64.b64decode` (default `validate=False`). -/
def b64decode (s : String) : Option (List Nat) :=
  b64decodeLoop s.data [] 0

example : b64encode [104, 105] = "aGk=" := by decide
example : b64decode "aGk=" = some [104, 105] := by decide
example : b64decode "a" = none := by decide
example : b64encode [] = "" := by decide
example : b64decode "" = some [] := by decide

/-- An alphabet character decodes back to its six-bit value. -/
theorem b64valOf_charOf (v : Nat) (hv : v < 64) : b64valOf (b64charOf v) = some v := by
  interval_cases v <;> decide

/-- Alphabet characters are never the padding character. -/
theorem b64charOf_ne_pad (v : Nat) (hv : v < 64) : b64charOf v ≠ '=' := by
  interval_cases v <;> decide

/-- The decoding loop inverts encoding for genuine byte input. -/
theorem b64decodeLoop_encodeBytes : ∀ (B : List Nat), (∀ b ∈ B, b < 256) →
    b64decodeLoop (b64encodeBytes B) [] 0 = some B
  | [], _ => rfl
  | [b1], h => by
    have h1 : b1 < 256 := h b1 (by simp)
    have e1 := b64valOf_charOf (b1 / 4) (by omega)
    have e2 := b64valOf_charOf ((b1 % 4) * 16) (by omega)
    have n1 := b64charOf_ne_pad (b1 / 4) (by omega)
    have n2 := b64charOf_ne_pad ((b1 % 4) * 16) (by omega)
    simp [b64encodeBytes, b64decodeLoop, e1, e2, n1, n2]
    omega
  | [b1, b2], h => by
    have h1 : b1 < 256 := h b1 (by simp)
    have h2 : b2 < 256 := h b2 (by simp)
    have e1 := b64valOf_charOf (b1 / 4) (by omega)
    have e2 := b64valOf_charOf ((b1 % 4) * 16 + b2 / 16) (by omega)
    have e3 := b64valOf_charOf ((b2 % 16) * 4) (by omega)
    have n1 := b64charOf_ne_pad (b1 / 4) (by omega)
    have n2 := b64charOf_ne_pad ((b1 % 4) * 16 + b2 / 16) (by omega)
    have n3 := b64charOf_ne_pad ((b2 % 16) * 4) (by omega)
    simp [b64encodeBytes, b64decodeLoop, e1, e2, e3, n1, n2, n3]
    omega
  | b1 :: b2 :: b3 :: rest, h => by
    have h1 : b1 < 256 := h b1 (by simp)
    have h2 : b2 < 256 := h b2 (by simp)
    have h3 : b3 < 256 := h b3 (by simp)
    have ih := b64decodeLoop_encodeBytes rest (fun b hb => h b (by simp [hb]))
    have e1 := b64valOf_charOf (b1 / 4) (by omega)
    have e2 := b64valOf_charOf ((b1 % 4) * 16 + b2 / 16) (by omega)
    have e3 := b64valOf_charOf ((b2 % 16) * 4 + b3 / 64) (by omega)
    have e4 := b64valOf_charOf (b3 % 64) (by omega)
    have n1 := b64charOf_ne_pad (b1 / 4) (by omega)
    have n2 := b64charOf_ne_pad ((b1 % 4) * 16 + b2 / 16) (by omega)
    have n3 := b64charOf_ne_pad ((b2 % 16) * 4 + b3 / 64) (by omega)
    have n4 := b64charOf_ne_pad (b3 % 64) (by omega)
    simp [b64encodeBytes, b64decodeLoop, e1, e2, e3, e4, n1, n2, n3, n4, ih]
    omega

/-- Base64 decoding inverts base64 encoding (the files round-trip uses
this at both protocol boundaries). -/
theorem b64decode_b64encode (B : List Nat) (hB : ∀ b ∈ B, b < 256) :
    b64decode (b64encode B) = some B := by
  unfold b64decode b64encode
  exact b64decodeLoop_encodeBytes B hB

/-! ## SHA-256 (model of `hashlib.sha256(...).hexdigest()`) -/

/-- Reduce to a 32-bit word. -/
def w32 (n : Nat) : Nat := n % 4294967296

/-- Rotate a 32-bit word right by `k` bits. -/
def rotr32 (x k : Nat) : Nat := x / 2 ^ k + x % 2 ^ k * 2 ^ (32 - k)

/-- Shift a 32-bit word right by `k` bits. -/
def shr32 (x k : Nat) : Nat := x / 2 ^ k

/-- Three-way bitwise exclusive or. -/
def xor3 (a b c : Nat) : Nat := Nat.xor (Nat.xor a b) c

/-- SHA-256 big sigma-0. -/
def bigSigma0 (x : Nat) : Nat := xor3 (rotr32 x 2) (rotr32 x 13) (rotr32 x 22)

/-- SHA-256 big sigma-1. -/
def bigSigma1 (x : Nat) : Nat := xor3 (rotr32 x 6) (rotr32 x 11) (rotr32 x 25)

/-- SHA-256 small sigma-0. -/
def smallSigma0 (x : Nat) : Nat := xor3 (rotr32 x 7) (rotr32 x 18) (shr32 x 3)

/-- SHA-256 small sigma-1. -/
def smallSigma1 (x : Nat) : Nat := xor3 (rotr32 x 17) (rotr32 x 19) (shr32 x 10)

/-- SHA-256 choice function. -/
def shaCh (x y z : Nat) : Nat :=
  Nat.xor (Nat.land x y) (Nat.land (Nat.xor x 4294967295) z)

/-- SHA-256 majority function. -/
def shaMaj (x y z : Nat) : Nat :=
  Nat.xor (Nat.xor (Nat.land x y) (Nat.land x z)) (Nat.land y z)

/-- The 64 SHA-256 round constants (decimal). -/
def sha256K : List Nat :=
  [1116352408, 1899447441, 3049323471, 3921009573, 961987163,
   1508970993, 2453635748, 2870763221, 3624381080, 310598401,
   607225278, 1426881987, 1925078388, 2162078206, 2614888103,
   3248222580, 3835390401, 4022224774, 264347078, 604807628,
   770255983, 1249150122, 1555081692, 1996064986, 2554220882,
   2821834349, 2952996808, 3210313671, 3336571891, 3584528711,
   113926993, 338241895, 666307205, 773529912, 1294757372,
   1396182291, 1695183700, 1986661051, 2177026350, 2456956037,
   2730485921, 2820302411, 3259730800, 3345764771, 3516065817,
   3600352804, 4094571909, 275423344, 430227734, 506948616,
   659060556, 883997877, 958139571, 1322822218, 1537002063,
   1747873779, 1955562222, 2024104815, 2227730452, 2361852424,
   2428436474, 2756734187, 3204031479, 3329325298]

/-- The SHA-256 initial hash state (decimal). -/
def sha256H0 : List Nat :=
  [1779033703, 3144134277, 1013904242, 2773480762,
   1359893119, 2600822924, 528734635, 1541459225]

/-- Big-endian byte expansion of a value into `k` bytes. -/
def beBytes : Nat → Nat → List Nat
  | 0, _ => []
  | k + 1, v => beBytes k (v / 256) ++ [v % 256]

/-- SHA-256 message padding: `0x80`, zeros, then the 64-bit bit length. -/
def sha256Pad (msg : List Nat) : List Nat :=
  let padZeros := (64 - (msg.length + 9) % 64) % 64
  msg ++ [128] ++ List.replicate padZeros 0 ++ beBytes 8 (msg.length * 8)

/-- Group bytes into 32-bit big-endian words. -/
def bytesToWords : List Nat → List Nat
  | a :: b :: c :: d :: rest => (((a * 256 + b) * 256 + c) * 256 + d) :: bytesToWords rest
  | _ => []

/-- Split a byte list into 64-byte blocks. -/
def chunks64 (l : List Nat) : List (List Nat) :=
  if h : l = [] then [] else l.take 64 :: chunks64 (l.drop 64)
termination_by l.length
decreasing_by
  simp only [List.length_drop]
  have : 0 < l.length := List.length_pos.mpr h
  omega

/-- Extend the 16-word schedule by `count` further words. -/
def sha256ExtendW (w : List Nat) : Nat → List Nat
  | 0 => w
  | k + 1 =>
    let n := w.length
    let nw := w32 (smallSigma1 (w.getD (n - 2) 0) + w.getD (n - 7) 0 +
      smallSigma0 (w.getD (n - 15) 0) + w.getD (n - 16) 0)
    sha256ExtendW (w ++ [nw]) k

/-- One SHA-256 compression round over a 64-byte block. -/
def sha256Compress (hs : List Nat) (block : List Nat) : List Nat :=
  let w := sha256ExtendW (bytesToWords block) 48
  let final := (List.range 64).foldl (fun st i =>
    match st with
    | [a, b, c, d, e, f, g, hh] =>
      let t1 := w32 (hh + bigSigma1 e + shaCh e f g + sha256K.getD i 0 + w.getD i 0)
      let t2 := w32 (bigSigma0 a + shaMaj a b c)
      [w32 (t1 + t2), a, b, c, w32 (d + t1), e, f, g]
    | other => other) hs
  List.zipWith (fun x y => w32 (x + y)) hs final

/-- SHA-256 digest bytes of a byte message. -/
def sha256Bytes (msg : List Nat) : List Nat :=
  let hs := (chunks64 (sha256Pad msg)).foldl sha256Compress sha256H0
  hs.foldr (fun wrd acc => beBytes 4 wrd ++ acc) []

/-- Lower-case hexadecimal character of a value below 16. -/
def hexChar (n : Nat) : Char := "0123456789abcdef".data.getD n '0'

/-- Model of `hashlib.sha256(data).hexdigest()`. -/
def sha256hex (msg : List Nat) : String :=
  String.mk ((sha256Bytes msg).foldr (fun b acc => hexChar (b / 16) :: hexChar (b % 16) :: acc) [])

/-! ## Command validation and execution (the `ops.exec` service) -/

/-- The source's `DEFAULT_ALLOWLIST`. -/
def DEFAULT_ALLOWLIST : List String := ["ls", "uname", "whoami", "echo"]

/-- Model of `edge_agent.validate_command`.  The allow-list is the
startup-loaded `ALLOWLIST` value, passed explicitly.  A `none` command
models a request whose `cmd` field is absent (`req.get("cmd")` returns
`None`, which is falsy like the empty string).  `Except.error` models a
raised `ValueError` with the same message. -/
def validate_command (allowlist : List String) (cmd : Option String) (args : List String) :
    Except String String :=
  match cmd with
  | none => .error "cmd must be a non-empty string"
  | some c =>
    if c = "" then .error "cmd must be a non-empty string"
    else if basename c = c then
      if ¬ allowlist.contains (basename c) then
        .error ("command '" ++ basename c ++ "' not permitted")
      else if args.any (fun a => a.data.contains (Char.ofNat 0) || a.length > 4096) then
        .error "invalid argument value"
      else .ok (basename c)
    else .error "cmd must be a bare command name (no paths)"

/-- Behaviour of the spawned process, i.e. of the `subprocess.run` call:
it either completes with an exit code and captured output, raises
`TimeoutExpired` with optional partial output, or raises some other
exception (spawn failure). -/
inductive ProcResult
  | completed (exitCode : Int) (stdout stderr : String)
  | timedOut (partialOut partialErr : Option String)
  | failed (msg : String)
deriving Repr, DecidableEq

/-- The execution environment of one `run_command` call: what the
subprocess did and the wall-clock duration `int((time.time()-start)*1000)`
observed at the `except`/return site. -/
structure ProcEnv where
  result : ProcResult
  elapsedMs : Nat
deriving Repr, DecidableEq

/-- A response written by the exec service (the JSON dict passed to
`_send`); absent keys are `none`. -/
structure ExecResp where
  ok : Bool
  error : Option String := none
  message : Option String := none
  exit_code : Option Int := none
  stdout : Option String := none
  stderr : Option String := none
  duration_ms : Option Nat := none
deriving Repr, DecidableEq

/-- Model of `edge_agent.run_command`: builds the outcome dict from the
subprocess behaviour, truncating each output stream to
`MAX_OUTPUT_CHARS` characters. -/
def run_command (timeoutSecs maxOutputChars : Nat) (env : ProcEnv) : ExecResp :=
  match env.result with
  | .completed ec out err =>
    { ok := true, exit_code := some ec,
      stdout := some (strTruncate maxOutputChars out),
      stderr := some (strTruncate maxOutputChars err),
      duration_ms := some env.elapsedMs }
  | .timedOut po pe =>
    { ok := false, error := some "timeout",
      message := some ("command exceeded " ++ toString timeoutSecs ++ "s"),
      stdout := some (strTruncate maxOutputChars (po.getD "")),
      stderr := some (strTruncate maxOutputChars (pe.getD "")),
      duration_ms := some env.elapsedMs }
  | .failed msg =>
    { ok := false, error := some "exec_error", message := some msg,
      duration_ms := some env.elapsedMs }

/-- A parsed exec request; `none` fields model absent JSON keys. -/
structure ExecReq where
  cmd : Option String := none
  args : Option (List String) := none
  caller : Option String := none
deriving Repr, DecidableEq

/-- What `ExecRequestHandler.handle` reads: an empty line, an unparsable
line (`json.loads` raised, with message), or a parsed request. -/
inductive ExecInput
  | empty
  | badJson (msg : String)
  | req (r : ExecReq)
deriving Repr, DecidableEq

/-- Model of `ExecRequestHandler.handle`.  The second component records
the `(cmd, args)` with which `run_command` was invoked, or `none` if the
handler returned before reaching `run_command` (no process spawn). -/
def execHandle (allowlist : List String) (timeoutSecs maxOutputChars : Nat) (env : ProcEnv)
    (inp : ExecInput) : ExecResp × Option (String × List String) :=
  match inp with
  | .empty => ({ ok := false, error := some "empty_request" }, none)
  | .badJson m => ({ ok := false, error := some "bad_json", message := some m }, none)
  | .req r =>
    let args := r.args.getD []
    match validate_command allowlist r.cmd args with
    | .error m => ({ ok := false, error := some "validation", message := some m }, none)
    | .ok base => (run_command timeoutSecs maxOutputChars env, some (base, args))

example : validate_command DEFAULT_ALLOWLIST (some "rm") [] =
    .error "command 'rm' not permitted" := by decide
example : validate_command DEFAULT_ALLOWLIST (some "bin/ls") [] =
    .error "cmd must be a bare command name (no paths)" := by decide
example : validate_command DEFAULT_ALLOWLIST (some "ls") ["-la"] = .ok "ls" := by decide

/-! ## The file store state and the `ops.files` service -/

/-- The observable state of the storage tree under the agent: the set of
directories that exist and the files with their byte contents.  A lookup
takes the most recent write (head of the list first), modelling
last-writer-wins at the storage layer. -/
structure FsState where
  dirs : List String
  files : List (String × List Nat)
deriving Repr, DecidableEq

/-- Contents of the file at `p`, if one exists. -/
def lookupFile (st : FsState) (p : String) : Option (List Nat) :=
  (st.files.find? (fun e => e.1 == p)).map (fun e => e.2)

/-- The state after `open(p, "wb")` writes (and fsyncs) `bs`. -/
def setFile (st : FsState) (p : String) (bs : List Nat) : FsState :=
  { st with files := (p, bs) :: st.files }

/-- Model of `os.path.exists`: a file or a directory is present at `p`. -/
def existsPath (st : FsState) (p : String) : Bool :=
  (lookupFile st p).isSome || st.dirs.contains p

/-- The chain of directories `os.makedirs` ensures for an absolute path
`d`: every non-root prefix of `d`, ending with `d` itself. -/
def dirChain (d : String) : List String :=
  let segs := (splitSlash d).filter (fun s => s != "")
  (List.range segs.length).map (fun i => "/" ++ joinSlash (segs.take (i + 1)))

/-- One component of `os.makedirs`' top-down walk: an existing directory
is accepted (`exist_ok=True`), a missing component is created, and a
component occupied by a regular file makes the underlying `mkdir` raise
(`FileExistsError`/`NotADirectoryError`), returning the partially
updated state and `false`. -/
def mkdirsLoop : FsState → List String → FsState × Bool
  | st, [] => (st, true)
  | st, x :: xs =>
    if st.dirs.contains x then mkdirsLoop st xs
    else if (lookupFile st x).isSome then (st, false)
    else mkdirsLoop { st with dirs := st.dirs ++ [x] } xs

/-- Model of `os.makedirs(d, exist_ok=True)` over the chain of `d` (the
root always exists): the second component is `false` where the source's
uncaught call raises. -/
def mkdirs (st : FsState) (d : String) : FsState × Bool :=
  mkdirsLoop st (dirChain d)

/-- A response written by the files service (the JSON dict passed to
`_send`); absent keys are `none`. -/
structure FilesResp where
  ok : Bool
  error : Option String := none
  message : Option String := none
  path : Option String := none
  size : Option Nat := none
  sha256 : Option String := none
  data : Option String := none
deriving Repr, DecidableEq

/-- A parsed files request; `none` fields model absent JSON keys. -/
structure FilesReq where
  op : Option String := none
  path : Option String := none
  data : Option String := none
  caller : Option String := none
deriving Repr, DecidableEq

/-- What `FilesRequestHandler.handle` reads: an empty line, an unparsable
line, or a parsed request. -/
inductive FilesInput
  | empty
  | badJson (msg : String)
  | req (r : FilesReq)
deriving Repr, DecidableEq

/-- Python truthiness of an optional string field: `None` and `""` are
falsy. -/
def falsy : Option String → Bool
  | none => true
  | some s => s == ""

/-- Model of `FilesRequestHandler.handle` as a function from the parsed
input and the storage state to the response written and the new state.
Observable storage faults are modelled: an `os.makedirs` walk obstructed
by a regular file raises outside any inner `try` and is converted by the
handler's outermost `except` into `handler_error`, and writing or
reading a path occupied by a directory (`IsADirectoryError`) yields
`io_error`; other I/O faults are outside the model.  The
`handler_error`/`io_error` messages stand in for the Python `str(e)`
text. -/
def filesHandle (baseDir : String) (st : FsState) (inp : FilesInput) : FilesResp × FsState :=
  match inp with
  | .empty => ({ ok := false, error := some "empty_request" }, st)
  | .badJson m => ({ ok := false, error := some "bad_json", message := some m }, st)
  | .req r =>
    if r.op = some "upload" then
      if falsy r.path || falsy r.data then
        ({ ok := false, error := some "validation", message := some "missing path or data" }, st)
      else
        match safe_join baseDir (r.path.getD "") with
        | none => ({ ok := false, error := some "path_forbidden" }, st)
        | some finalPath =>
          match mkdirs st (dirname finalPath) with
          | (st1, false) =>
            ({ ok := false, error := some "handler_error", message := some "makedirs failed" },
              st1)
          | (st1, true) =>
            match b64decode (r.data.getD "") with
            | none => ({ ok := false, error := some "bad_base64" }, st1)
            | some data =>
              if st1.dirs.contains finalPath then
                ({ ok := false, error := some "io_error", message := some "is a directory" },
                  st1)
              else
                ({ ok := true, path := some finalPath, size := some data.length,
                   sha256 := some (sha256hex data) }, setFile st1 finalPath data)
    else if r.op = some "download" then
      if falsy r.path then
        ({ ok := false, error := some "validation", message := some "missing path" }, st)
      else
        match safe_join baseDir (r.path.getD "") with
        | none => ({ ok := false, error := some "path_forbidden" }, st)
        | some finalPath =>
          if ¬ existsPath st finalPath then
            ({ ok := false, error := some "not_found", message := some "file not found" }, st)
          else
            match lookupFile st finalPath with
            | none =>
              ({ ok := false, error := some "io_error", message := some "is a directory" }, st)
            | some data =>
              ({ ok := true, path := some finalPath, size := some data.length,
                 data := some (b64encode data), sha256 := some (sha256hex data) }, st)
    else
      ({ ok := false, error := some "unsupported_op",
         message := some ("op=" ++ (match r.op with | some s => s | none => "None")) }, st)

/-! ## The forward gate (the `ops.forward` service) -/

/-- The forwarding configuration loaded at startup:
`OPS_FORWARD_ALLOWED_HOSTS`, `OPS_FORWARD_ALLOWED_PORTS`,
`OPS_FORWARD_DEFAULT_TARGET_HOST`, `OPS_FORWARD_DEFAULT_TARGET_PORT`. -/
structure ForwardCfg where
  allowedHosts : List String
  allowedPorts : List Nat
  defaultHost : String
  defaultPort : Nat
deriving Repr, DecidableEq

/-- What `ForwardRequestHandler.handle` does before relaying: either it
writes one JSON error line and returns, or it dials an outbound TCP
connection to a host and port. -/
inductive ForwardAction
  | sendError (code : String) (message : String)
  | dial (host : String) (port : Nat)
deriving Repr, DecidableEq

/-- Model of the target-selection and policy portion of
`ForwardRequestHandler.handle`.  `header` is whatever target the caller
may have advertised on the wire; the source never reads it (raw TCP
forwarding expects no JSON header), so it is an ignored argument. -/
def forwardHandle (cfg : ForwardCfg) (header : Option (String × Nat)) : ForwardAction :=
  let host := cfg.defaultHost
  let port := cfg.defaultPort
  if ¬ cfg.allowedHosts.contains host then .sendError "forbidden" "host not allowed"
  else if ¬ cfg.allowedPorts.contains port then .sendError "forbidden" "port not allowed"
  else .dial host port

/-! ## The relay engine

The two `relay` threads of `ForwardRequestHandler.handle` are modelled as
a labelled transition system.  Each pump direction either delivers its
next chunk to its destination or completes (zero-length read at
end-of-stream, or any exception); completing executes the `finally`
block, which shuts down only the write half of that direction's
destination (`dst.shutdown(socket.SHUT_WR)`).  The main thread joins both
pumps and only then fully closes the local socket
(`local_sock.close()`). -/

/-- A relay direction: ziti-to-local or local-to-ziti. -/
inductive RelayDir
  | z2l
  | l2z
deriving Repr, DecidableEq

/-- The state of one pump thread: still looping with the given pending
chunks, or completed (its `finally` has run). -/
inductive PumpSt
  | running (chunks : List (List Nat))
  | done
deriving Repr, DecidableEq

/-- The joint state of the relay session: the two pump threads and
whether the main thread has closed the local socket. -/
structure RelaySt where
  z2l : PumpSt
  l2z : PumpSt
  closed : Bool
deriving Repr, DecidableEq

/-- Observable relay events: a chunk forwarded in a direction, the
write-half shutdown of a direction's destination stream, and the full
close of the local socket by the main thread. -/
inductive RelayEv
  | deliver (d : RelayDir) (chunk : List Nat)
  | shutWR (d : RelayDir)
  | closeLocal
deriving Repr, DecidableEq

/-- One interleaved step of the relay session.  A pump may complete with
chunks still pending (an exception on `recv`/`sendall`); completion always
emits exactly the half-close of its destination.  The main thread's
`closeLocal` is enabled only once both pumps have completed (both
`join()` calls returned). -/
inductive RelayStep : RelaySt → RelayEv → RelaySt → Prop
  | deliverZ (c : List Nat) (cs : List (List Nat)) (p : PumpSt) :
      RelayStep ⟨.running (c :: cs), p, false⟩ (.deliver .z2l c) ⟨.running cs, p, false⟩
  | deliverL (c : List Nat) (cs : List (List Nat)) (p : PumpSt) :
      RelayStep ⟨p, .running (c :: cs), false⟩ (.deliver .l2z c) ⟨p, .running cs, false⟩
  | finishZ (cs : List (List Nat)) (p : PumpSt) :
      RelayStep ⟨.running cs, p, false⟩ (.shutWR .z2l) ⟨.done, p, false⟩
  | finishL (cs : List (List Nat)) (p : PumpSt) :
      RelayStep ⟨p, .running cs, false⟩ (.shutWR .l2z) ⟨p, .done, false⟩
  | close :
      RelayStep ⟨.done, .done, false⟩ .closeLocal ⟨.done, .done, true⟩

/-- A finite trace of relay events between two states. -/
inductive RelayTrace : RelaySt → List RelayEv → RelaySt → Prop
  | nil (s : RelaySt) : RelayTrace s [] s
  | cons {s s' s'' : RelaySt} {e : RelayEv} {tr : List RelayEv} :
      RelayStep s e s' → RelayTrace s' tr s'' → RelayTrace s (e :: tr) s''

/-- The initial state of a relay session over the chunk sequences that
the two sockets will yield. -/
def relayInit (zitiChunks localChunks : List (List Nat)) : RelaySt :=
  ⟨.running zitiChunks, .running localChunks, false⟩

/-- Numeric flag for a completed pump. -/
def doneN : PumpSt → Nat
  | .running _ => 0
  | .done => 1

/-- Numeric flag for a closed local socket. -/
def closedN : Bool → Nat
  | false => 0
  | true => 1

/-- Trace invariant: each pump's completion flag accounts exactly for the
half-close events emitted so far, the close flag accounts for the
`closeLocal` events, and nothing happens after the local socket is
closed. -/
theorem relayTrace_inv {s : RelaySt} {tr : List RelayEv} {s' : RelaySt}
    (h : RelayTrace s tr s') :
    doneN s.z2l + tr.count (RelayEv.shutWR RelayDir.z2l) = doneN s'.z2l ∧
    doneN s.l2z + tr.count (RelayEv.shutWR RelayDir.l2z) = doneN s'.l2z ∧
    closedN s.closed + tr.count RelayEv.closeLocal = closedN s'.closed ∧
    (s.closed = true → tr = []) := by
  induction h with
  | nil s => simp
  | cons st rest ih =>
    obtain ⟨ih1, ih2, ih3, ih4⟩ := ih
    cases st <;>
      refine ⟨?_, ?_, ?_, ?_⟩ <;>
        simp only [List.count_cons, beq_iff_eq, reduceCtorEq, if_false, if_true,
          reduceIte, doneN, closedN] at ih1 ih2 ih3 ih4 ⊢ <;>
        first
          | assumption
          | omega
          | simp

/-- A trace over an appended event list splits at the join point. -/
theorem relayTrace_append {s s'' : RelaySt} {tr1 tr2 : List RelayEv}
    (h : RelayTrace s (tr1 ++ tr2) s'') :
    ∃ mid, RelayTrace s tr1 mid ∧ RelayTrace mid tr2 s'' := by
  induction tr1 generalizing s with
  | nil => exact ⟨s, .nil s, h⟩
  | cons e tr ih =>
    cases h with
    | cons st rest =>
      obtain ⟨mid, h1, h2⟩ := ih rest
      exact ⟨mid, .cons st h1, h2⟩

/-- The only step emitting `closeLocal` starts from a state where both
pumps have completed and leads to the closed state. -/
theorem relayStep_closeLocal {s s' : RelaySt}
    (h : RelayStep s RelayEv.closeLocal s') :
    s = ⟨.done, .done, false⟩ ∧ s' = ⟨.done, .done, true⟩ := by
  cases h; exact ⟨rfl, rfl⟩

/-- Every pump state is flagged by at most one. -/
theorem doneN_le_one (p : PumpSt) : doneN p ≤ 1 := by
  cases p <;> simp [doneN]

/-- C9: in every interleaved execution of the relay session, each pump
direction performs at most one half-close of its destination (and the
model admits no full close of either stream by a pump); the local-socket
close appears only after both directions' half-closes and is the final
event of the trace; and as long as the session is not closed some step
remains enabled — in particular completion of one direction never
disables the other. -/
theorem relay_halfclose_and_join
    (zc lc : List (List Nat)) (tr : List RelayEv) (s : RelaySt)
    (h : RelayTrace (relayInit zc lc) tr s) :
    (RelayEv.closeLocal ∈ tr →
      RelayEv.shutWR RelayDir.z2l ∈ tr ∧ RelayEv.shutWR RelayDir.l2z ∈ tr ∧
      tr.getLast? = some RelayEv.closeLocal) ∧
    tr.count (RelayEv.shutWR RelayDir.z2l) ≤ 1 ∧
    tr.count (RelayEv.shutWR RelayDir.l2z) ≤ 1 ∧
    tr.count RelayEv.closeLocal ≤ 1 ∧
    (s.closed = false → ∃ e s', RelayStep s e s') := by
  obtain ⟨i1, i2, i3, i4⟩ := relayTrace_inv h
  simp only [relayInit, doneN, closedN] at i1 i2 i3
  refine ⟨?_, ?_, ?_, ?_, ?_⟩
  · intro hmem
    obtain ⟨t1, t2, rfl⟩ := List.append_of_mem hmem
    obtain ⟨mid, h1, h2⟩ := relayTrace_append h
    cases h2 with
    | cons stc rest =>
      obtain ⟨hmid, hmid'⟩ := relayStep_closeLocal stc
      subst hmid; subst hmid'
      have ht2 : t2 = [] := (relayTrace_inv rest).2.2.2 rfl
      subst ht2
      obtain ⟨j1, j2, j3, j4⟩ := relayTrace_inv h1
      simp only [relayInit, doneN, closedN] at j1 j2 j3
      have hz : RelayEv.shutWR RelayDir.z2l ∈ t1 := by
        have : 0 < t1.count (RelayEv.shutWR RelayDir.z2l) := by omega
        exact List.count_pos_iff.mp this
      have hl : RelayEv.shutWR RelayDir.l2z ∈ t1 := by
        have : 0 < t1.count (RelayEv.shutWR RelayDir.l2z) := by omega
        exact List.count_pos_iff.mp this
      refine ⟨List.mem_append_left _ hz, List.mem_append_left _ hl, ?_⟩
      exact List.getLast?_concat t1
  · have hle := doneN_le_one s.z2l
    simp only [doneN] at hle
    omega
  · have hle := doneN_le_one s.l2z
    simp only [doneN] at hle
    omega
  · have hle : closedN s.closed ≤ 1 := by cases hs : s.closed <;> simp [closedN]
    simp only [closedN] at hle
    omega
  · obtain ⟨sz, sl, sc⟩ := s
    intro hcl
    simp only at hcl
    subst hcl
    cases sz with
    | running cs => exact ⟨_, _, RelayStep.finishZ cs sl⟩
    | done =>
      cases sl with
      | running cs => exact ⟨_, _, RelayStep.finishL cs PumpSt.done⟩
      | done => exact ⟨_, _, RelayStep.close⟩

/-- Concrete relay session witnessing the reachability hypothesis of the
relay theorem: one chunk flows ziti-to-local, both pumps complete with
their half-closes, then the local socket is closed. -/
theorem relay_halfclose_and_join_witness :
    RelayTrace (relayInit [[1]] [])
      [RelayEv.deliver RelayDir.z2l [1], RelayEv.shutWR RelayDir.z2l,
       RelayEv.shutWR RelayDir.l2z, RelayEv.closeLocal]
      ⟨PumpSt.done, PumpSt.done, true⟩ ∧
    ((RelayEv.closeLocal ∈
        [RelayEv.deliver RelayDir.z2l [1], RelayEv.shutWR RelayDir.z2l,
         RelayEv.shutWR RelayDir.l2z, RelayEv.closeLocal] →
      RelayEv.shutWR RelayDir.z2l ∈
        [RelayEv.deliver RelayDir.z2l [1], RelayEv.shutWR RelayDir.z2l,
         RelayEv.shutWR RelayDir.l2z, RelayEv.closeLocal] ∧
      RelayEv.shutWR RelayDir.l2z ∈
        [RelayEv.deliver RelayDir.z2l [1], RelayEv.shutWR RelayDir.z2l,
         RelayEv.shutWR RelayDir.l2z, RelayEv.closeLocal] ∧
      List.getLast? [RelayEv.deliver RelayDir.z2l [1], RelayEv.shutWR RelayDir.z2l,
         RelayEv.shutWR RelayDir.l2z, RelayEv.closeLocal] = some RelayEv.closeLocal) ∧
    List.count (RelayEv.shutWR RelayDir.z2l)
      [RelayEv.deliver RelayDir.z2l [1], RelayEv.shutWR RelayDir.z2l,
       RelayEv.shutWR RelayDir.l2z, RelayEv.closeLocal] ≤ 1 ∧
    List.count (RelayEv.shutWR RelayDir.l2z)
      [RelayEv.deliver RelayDir.z2l [1], RelayEv.shutWR RelayDir.z2l,
       RelayEv.shutWR RelayDir.l2z, RelayEv.closeLocal] ≤ 1 ∧
    List.count RelayEv.closeLocal
      [RelayEv.deliver RelayDir.z2l [1], RelayEv.shutWR RelayDir.z2l,
       RelayEv.shutWR RelayDir.l2z, RelayEv.closeLocal] ≤ 1 ∧
    ((⟨PumpSt.done, PumpSt.done, true⟩ : RelaySt).closed = false →
      ∃ e s', RelayStep ⟨PumpSt.done, PumpSt.done, true⟩ e s')) := by
  have htr : RelayTrace (relayInit [[1]] [])
      [RelayEv.deliver RelayDir.z2l [1], RelayEv.shutWR RelayDir.z2l,
       RelayEv.shutWR RelayDir.l2z, RelayEv.closeLocal]
      ⟨PumpSt.done, PumpSt.done, true⟩ :=
    RelayTrace.cons (RelayStep.deliverZ [1] [] (PumpSt.running []))
      (RelayTrace.cons (RelayStep.finishZ [] (PumpSt.running []))
        (RelayTrace.cons (RelayStep.finishL [] PumpSt.done)
          (RelayTrace.cons RelayStep.close (RelayTrace.nil _))))
  exact ⟨htr, relay_halfclose_and_join [[1]] [] _ _ htr⟩

/-! ## Supporting lemmas -/

/-- A path that resolves outside the base directory makes `safe_join`
raise. -/
theorem safe_join_eq_none_of_outside {base rel : String} (h : pathOutside base rel) :
    safe_join base rel = none := by
  unfold safe_join
  unfold pathOutside at h
  exact if_neg h

/-- Encoding a non-empty byte sequence yields a non-empty string. -/
theorem b64encode_ne_empty : ∀ (B : List Nat), B ≠ [] → b64encode B ≠ ""
  | [], h => absurd rfl h
  | [b1], _ => by
    intro he
    have hd := congrArg String.data he
    simp [b64encode, b64encodeBytes] at hd
  | [b1, b2], _ => by
    intro he
    have hd := congrArg String.data he
    simp [b64encode, b64encodeBytes] at hd
  | b1 :: b2 :: b3 :: rest, _ => by
    intro he
    have hd := congrArg String.data he
    simp [b64encode, b64encodeBytes] at hd

/-- Reading back the file just written returns the written bytes. -/
theorem lookupFile_setFile (st : FsState) (p : String) (bs : List Nat) :
    lookupFile (setFile st p bs) p = some bs := by
  simp [lookupFile, setFile, List.find?_cons]

/-- Directories only accumulate along the makedirs walk. -/
theorem mkdirsLoop_dirs_mono : ∀ (st : FsState) (xs : List String) (x : String),
    x ∈ st.dirs → x ∈ (mkdirsLoop st xs).1.dirs
  | _, [], _, hx => hx
  | st, y :: ys, x, hx => by
    simp only [mkdirsLoop]
    split
    · exact mkdirsLoop_dirs_mono st ys x hx
    · split
      · exact hx
      · exact mkdirsLoop_dirs_mono _ ys x (by simp [hx])

/-- A successful makedirs walk leaves every requested component a
directory. -/
theorem mkdirsLoop_mem_of_ok : ∀ (st : FsState) (xs : List String) (x : String),
    x ∈ xs → (mkdirsLoop st xs).2 = true → x ∈ (mkdirsLoop st xs).1.dirs
  | _, [], x, hx, _ => absurd hx (by simp)
  | st, y :: ys, x, hx, hok => by
    have hstep : mkdirsLoop st (y :: ys) =
        if st.dirs.contains y then mkdirsLoop st ys
        else if (lookupFile st y).isSome then (st, false)
        else mkdirsLoop { st with dirs := st.dirs ++ [y] } ys := by
      simp only [mkdirsLoop]
    by_cases h1 : st.dirs.contains y
    · rw [hstep, if_pos h1] at hok ⊢
      rcases List.mem_cons.mp hx with rfl | hmem
      · exact mkdirsLoop_dirs_mono st ys x (by simpa using h1)
      · exact mkdirsLoop_mem_of_ok st ys x hmem hok
    · by_cases h2 : (lookupFile st y).isSome
      · rw [hstep, if_neg h1, if_pos h2] at hok
        simp at hok
      · rw [hstep, if_neg h1, if_neg h2] at hok ⊢
        rcases List.mem_cons.mp hx with rfl | hmem
        · exact mkdirsLoop_dirs_mono _ ys x (by simp)
        · exact mkdirsLoop_mem_of_ok _ ys x hmem hok

/-- A successful `mkdirs` contains the requested directory whenever it
lies on its own chain (any non-root absolute path). -/
theorem mem_mkdirs_self (st : FsState) (d : String)
    (hchain : d ∈ dirChain d) (hok : (mkdirs st d).2 = true) :
    d ∈ (mkdirs st d).1.dirs :=
  mkdirsLoop_mem_of_ok st (dirChain d) d hchain hok

/-- A successful `mkdirs` changes the state when the requested directory
was absent. -/
theorem mkdirs_ne_of_missing (st : FsState) (d : String)
    (hchain : d ∈ dirChain d) (hok : (mkdirs st d).2 = true)
    (hnot : d ∉ st.dirs) : (mkdirs st d).1 ≠ st := by
  intro he
  have hmem := mem_mkdirs_self st d hchain hok
  rw [he] at hmem
  exact hnot hmem

/-- A command whose basename is not on the allow-list never validates. -/
theorem validate_command_error_of_not_allowed (allowlist : List String) (c : String)
    (args : List String) (hnot : allowlist.contains (basename c) = false) :
    ∃ m, validate_command allowlist (some c) args = .error m := by
  simp only [validate_command]
  by_cases hce : c = ""
  · subst hce
    simp
  · rw [if_neg hce]
    by_cases hb : basename c = c
    · rw [if_pos hb, if_pos (by simpa using hnot)]
      exact ⟨_, rfl⟩
    · rw [if_neg hb]
      exact ⟨_, rfl⟩

/-- An accepted upload with a creatable parent chain writes the decoded
bytes at the resolved path. -/
theorem filesHandle_upload_ok
    (baseDir : String) (st st1 : FsState) (P dataStr fp : String) (data : List Nat)
    (hP : P ≠ "") (hdata : dataStr ≠ "")
    (hsj : safe_join baseDir P = some fp)
    (hmk : mkdirs st (dirname fp) = (st1, true))
    (hdec : b64decode dataStr = some data)
    (hfp : st1.dirs.contains fp = false) :
    filesHandle baseDir st
        (.req { op := some "upload", path := some P, data := some dataStr }) =
      ({ ok := true, path := some fp, size := some data.length,
         sha256 := some (sha256hex data) }, setFile st1 fp data) := by
  have hfp' : fp ∉ st1.dirs := by simpa using hfp
  simp [filesHandle, falsy, hP, hdata, hsj, hmk, hdec, hfp']

/-- A download of an existing file returns its bytes re-encoded. -/
theorem filesHandle_download_ok
    (baseDir : String) (st : FsState) (P fp : String) (data : List Nat)
    (hP : P ≠ "")
    (hsj : safe_join baseDir P = some fp)
    (hlk : lookupFile st fp = some data) :
    filesHandle baseDir st (.req { op := some "download", path := some P }) =
      ({ ok := true, path := some fp, size := some data.length,
         data := some (b64encode data), sha256 := some (sha256hex data) }, st) := by
  have hex : existsPath st fp = true := by simp [existsPath, hlk]
  simp [filesHandle, falsy, hP, hsj, hex, hlk]

/-! ## Claims -/

/-- C1: for every relative path containing `..` segments whose normalized
join with the configured base directory falls outside that base
directory, both the upload and the download operation return `ok:false`
with error `"path_forbidden"`, and no file-system mutation (no directory
creation, no file write) occurs on that request: the state returned by
the handler is the state it was given. -/
theorem traversal_path_forbidden_no_mutation
    (baseDir : String) (st : FsState) (p d : String)
    (hdots : (splitSlash p).contains ".." = true)
    (hout : pathOutside baseDir p)
    (hd : d ≠ "") :
    filesHandle baseDir st (.req { op := some "upload", path := some p, data := some d }) =
      ({ ok := false, error := some "path_forbidden" }, st) ∧
    filesHandle baseDir st (.req { op := some "download", path := some p }) =
      ({ ok := false, error := some "path_forbidden" }, st) := by
  have hp : p ≠ "" := by
    intro he
    subst he
    revert hdots
    decide
  have hsj := safe_join_eq_none_of_outside hout
  constructor
  · simp [filesHandle, falsy, hp, hd, hsj]
  · simp [filesHandle, falsy, hp, hsj]

/-- Concrete traversal request exercising C1: `../escape` from the
default base directory. -/
theorem traversal_path_forbidden_no_mutation_witness :
    (splitSlash "../escape").contains ".." = true ∧
    pathOutside "/var/local/ops_files" "../escape" ∧
    "aGk=" ≠ "" ∧
    (filesHandle "/var/local/ops_files" ⟨["/var/local/ops_files"], []⟩
        (.req { op := some "upload", path := some "../escape", data := some "aGk=" }) =
      ({ ok := false, error := some "path_forbidden" }, ⟨["/var/local/ops_files"], []⟩) ∧
    filesHandle "/var/local/ops_files" ⟨["/var/local/ops_files"], []⟩
        (.req { op := some "download", path := some "../escape" }) =
      ({ ok := false, error := some "path_forbidden" }, ⟨["/var/local/ops_files"], []⟩)) :=
  ⟨by decide, by decide, by decide,
    traversal_path_forbidden_no_mutation "/var/local/ops_files"
      ⟨["/var/local/ops_files"], []⟩ "../escape" "aGk=" (by decide) (by decide) (by decide)⟩

/-- C2: for every exec request whose bare command name is not a member of
the configured allow-list, the exec service returns `ok:false` with error
`"validation"` and never reaches `run_command` (no process is spawned:
the recorded spawn is `none`). -/
theorem exec_denied_never_spawns
    (allowlist : List String) (t m : Nat) (env : ProcEnv) (r : ExecReq) (c : String)
    (hc : r.cmd = some c)
    (hnot : allowlist.contains (basename c) = false) :
    (execHandle allowlist t m env (.req r)).1.ok = false ∧
    (execHandle allowlist t m env (.req r)).1.error = some "validation" ∧
    (execHandle allowlist t m env (.req r)).2 = none := by
  obtain ⟨msg, hval⟩ :=
    validate_command_error_of_not_allowed allowlist c (r.args.getD []) hnot
  rw [← hc] at hval
  simp [execHandle, hval]

/-- Concrete denied command exercising C2: `rm` against the default
allow-list. -/
theorem exec_denied_never_spawns_witness :
    ({ cmd := some "rm" } : ExecReq).cmd = some "rm" ∧
    DEFAULT_ALLOWLIST.contains (basename "rm") = false ∧
    ((execHandle DEFAULT_ALLOWLIST 30 100000 ⟨.completed 0 "" "", 1⟩
        (.req { cmd := some "rm" })).1.ok = false ∧
      (execHandle DEFAULT_ALLOWLIST 30 100000 ⟨.completed 0 "" "", 1⟩
        (.req { cmd := some "rm" })).1.error = some "validation" ∧
      (execHandle DEFAULT_ALLOWLIST 30 100000 ⟨.completed 0 "" "", 1⟩
        (.req { cmd := some "rm" })).2 = none) :=
  ⟨rfl, by decide,
    exec_denied_never_spawns DEFAULT_ALLOWLIST 30 100000 ⟨.completed 0 "" "", 1⟩
      { cmd := some "rm" } "rm" rfl (by decide)⟩

/-- C3: the forward handler ignores any caller-supplied target (its
result does not depend on the advertised header), always dials the
operator-configured default host and port, and does so only after the
default host passes the allowed-hosts check and the default port passes
the allowed-ports check, each checked on its own; if either fails the
result is a `"forbidden"` error and no dial happens. -/
theorem forward_fixed_target_ignores_header
    (cfg : ForwardCfg) (hdr hdr2 : Option (String × Nat)) :
    forwardHandle cfg hdr = forwardHandle cfg hdr2 ∧
    (cfg.allowedHosts.contains cfg.defaultHost = false →
      forwardHandle cfg hdr = .sendError "forbidden" "host not allowed") ∧
    (cfg.allowedHosts.contains cfg.defaultHost = true →
      cfg.allowedPorts.contains cfg.defaultPort = false →
      forwardHandle cfg hdr = .sendError "forbidden" "port not allowed") ∧
    (cfg.allowedHosts.contains cfg.defaultHost = true →
      cfg.allowedPorts.contains cfg.defaultPort = true →
      forwardHandle cfg hdr = .dial cfg.defaultHost cfg.defaultPort) ∧
    (∀ h p, forwardHandle cfg hdr = .dial h p →
      h = cfg.defaultHost ∧ p = cfg.defaultPort ∧
      cfg.allowedHosts.contains cfg.defaultHost = true ∧
      cfg.allowedPorts.contains cfg.defaultPort = true) := by
  unfold forwardHandle
  by_cases h1 : cfg.allowedHosts.contains cfg.defaultHost <;>
    by_cases h2 : cfg.allowedPorts.contains cfg.defaultPort <;>
      simp_all

/-- C4 counterexample: uploading the empty byte sequence never succeeds.
Its base64 encoding is the empty string, which the handler's falsiness
check rejects as `"missing path or data"` before any file-store step, so
the round-trip property fails for `B = []`. -/
theorem upload_empty_bytes_rejected :
    b64encode [] = "" ∧
    filesHandle "/var/local/ops_files" ⟨[], []⟩
        (.req { op := some "upload", path := some "notes/a.txt",
                data := some (b64encode []) }) =
      ({ ok := false, error := some "validation", message := some "missing path or data" },
        ⟨[], []⟩) := by decide

/-- C4 (amended): for every non-empty byte sequence `B` and every
relative path `P` accepted by the sandbox whose resolved parent chain is
creatable (`os.makedirs` does not hit a regular file) and whose resolved
path is not an existing directory, uploading `B` to `P` and then
downloading `P` succeeds, the downloaded payload decodes to bytes equal
to `B`, and the `sha256` field of the upload response equals the
`sha256` field of the download response. -/
theorem upload_download_roundtrip
    (baseDir : String) (st st1 : FsState) (P : String) (B : List Nat) (fp : String)
    (hB : B ≠ []) (hBb : ∀ b ∈ B, b < 256) (hP : P ≠ "")
    (hsj : safe_join baseDir P = some fp)
    (hmk : mkdirs st (dirname fp) = (st1, true))
    (hfp : st1.dirs.contains fp = false) :
    filesHandle baseDir st
        (.req { op := some "upload", path := some P, data := some (b64encode B) }) =
      ({ ok := true, path := some fp, size := some B.length,
         sha256 := some (sha256hex B) }, setFile st1 fp B) ∧
    filesHandle baseDir (setFile st1 fp B)
        (.req { op := some "download", path := some P }) =
      ({ ok := true, path := some fp, size := some B.length,
         data := some (b64encode B), sha256 := some (sha256hex B) },
        setFile st1 fp B) ∧
    b64decode (b64encode B) = some B ∧
    (filesHandle baseDir st
        (.req { op := some "upload", path := some P, data := some (b64encode B) })).1.sha256 =
      (filesHandle baseDir (setFile st1 fp B)
        (.req { op := some "download", path := some P })).1.sha256 := by
  have hdec := b64decode_b64encode B hBb
  have hne := b64encode_ne_empty B hB
  have hup := filesHandle_upload_ok baseDir st st1 P (b64encode B) fp B hP hne hsj hmk hdec hfp
  have hdn := filesHandle_download_ok baseDir (setFile st1 fp B) P fp B
    hP hsj (lookupFile_setFile st1 fp B)
  refine ⟨hup, hdn, hdec, ?_⟩
  rw [hup, hdn]

/-- Concrete round-trip exercising C4: two bytes to `notes/a.txt` from
the empty store, whose parent chain is created successfully. -/
theorem upload_download_roundtrip_witness :
    ([104, 105] : List Nat) ≠ [] ∧
    (∀ b ∈ ([104, 105] : List Nat), b < 256) ∧
    "notes/a.txt" ≠ "" ∧
    safe_join "/var/local/ops_files" "notes/a.txt" =
      some "/var/local/ops_files/notes/a.txt" ∧
    mkdirs ⟨[], []⟩ (dirname "/var/local/ops_files/notes/a.txt") =
      (⟨["/var", "/var/local", "/var/local/ops_files", "/var/local/ops_files/notes"], []⟩,
        true) ∧
    (⟨["/var", "/var/local", "/var/local/ops_files", "/var/local/ops_files/notes"],
        []⟩ : FsState).dirs.contains "/var/local/ops_files/notes/a.txt" = false ∧
    b64decode (b64encode [104, 105]) = some [104, 105] :=
  ⟨by decide, by decide, by decide, by decide, by decide, by decide,
    (upload_download_roundtrip "/var/local/ops_files" ⟨[], []⟩
      ⟨["/var", "/var/local", "/var/local/ops_files", "/var/local/ops_files/notes"], []⟩
      "notes/a.txt" [104, 105] "/var/local/ops_files/notes/a.txt"
      (by decide) (by decide) (by decide) (by decide) (by decide) (by decide)).2.2.1⟩

/-- C5 counterexample: for `cmd = "bin/ls"` — which contains a path
separator and whose basename `ls` is on the default allow-list — the
validator's message is `"cmd must be a bare command name (no paths)"`,
not the claimed `"cmd must be a bare command name"`. -/
theorem validate_barename_message_counterexample :
    basename "bin/ls" ≠ "bin/ls" ∧
    DEFAULT_ALLOWLIST.contains (basename "bin/ls") = true ∧
    validate_command DEFAULT_ALLOWLIST (some "bin/ls") [] =
      .error "cmd must be a bare command name (no paths)" ∧
    validate_command DEFAULT_ALLOWLIST (some "bin/ls") [] ≠
      .error "cmd must be a bare command name" := by decide

/-- C5 (amended to the code's full message): for every `cmd` string
containing a path separator (`basename cmd ≠ cmd`), validation rejects
the request with the message
`"cmd must be a bare command name (no paths)"`, regardless of whether the
command's basename is on the allow-list; the check runs before the
allow-list check, so the allow-list never influences the outcome. -/
theorem validate_rejects_path_separators
    (allowlist : List String) (c : String) (args : List String)
    (h : basename c ≠ c) :
    validate_command allowlist (some c) args =
      .error "cmd must be a bare command name (no paths)" := by
  have hc : c ≠ "" := by
    intro he
    subst he
    exact h (by decide)
  simp [validate_command, hc, h]

/-- Concrete separator-bearing command exercising C5. -/
theorem validate_rejects_path_separators_witness :
    basename "bin/echo" ≠ "bin/echo" ∧
    validate_command DEFAULT_ALLOWLIST (some "bin/echo") ["x"] =
      .error "cmd must be a bare command name (no paths)" :=
  ⟨by decide,
    validate_rejects_path_separators DEFAULT_ALLOWLIST "bin/echo" ["x"] (by decide)⟩

/-- C6: a validated command whose execution exceeds the configured
timeout yields `ok:false` with error `"timeout"`, a message containing
the configured timeout value, the captured partial output (possibly
empty, each stream truncated to the configured maximum), and a
`duration_ms` at least the configured timeout (in milliseconds).  The
hypothesis `t * 1000 ≤ env.elapsedMs` is the `subprocess.run` contract:
`TimeoutExpired` is raised only once the timeout has elapsed. -/
theorem run_command_timeout_outcome
    (t m : Nat) (env : ProcEnv) (po pe : Option String)
    (hres : env.result = .timedOut po pe)
    (helapsed : t * 1000 ≤ env.elapsedMs) :
    run_command t m env =
      { ok := false, error := some "timeout",
        message := some ("command exceeded " ++ toString t ++ "s"),
        stdout := some (strTruncate m (po.getD "")),
        stderr := some (strTruncate m (pe.getD "")),
        duration_ms := some env.elapsedMs } ∧
    (∃ pre post : String,
      ("command exceeded " ++ toString t ++ "s") = pre ++ toString t ++ post) ∧
    t * 1000 ≤ (run_command t m env).duration_ms.getD 0 := by
  refine ⟨by simp [run_command, hres], ⟨"command exceeded ", "s", rfl⟩, ?_⟩
  simp only [run_command, hres]
  simpa using helapsed

/-- Concrete timed-out execution exercising C6: 30-second timeout, 30
seconds elapsed, partial stdout captured. -/
theorem run_command_timeout_outcome_witness :
    (⟨.timedOut (some "partial") none, 30000⟩ : ProcEnv).result =
      .timedOut (some "partial") none ∧
    30 * 1000 ≤ (⟨.timedOut (some "partial") none, 30000⟩ : ProcEnv).elapsedMs ∧
    run_command 30 100000 ⟨.timedOut (some "partial") none, 30000⟩ =
      { ok := false, error := some "timeout",
        message := some ("command exceeded " ++ toString 30 ++ "s"),
        stdout := some (strTruncate 100000 ((some "partial").getD "")),
        stderr := some (strTruncate 100000 ((none : Option String).getD "")),
        duration_ms := some 30000 } :=
  ⟨rfl, by decide,
    (run_command_timeout_outcome 30 100000 ⟨.timedOut (some "partial") none, 30000⟩
      (some "partial") none rfl (by decide)).1⟩

/-- C7: a validated command that spawns successfully and completes within
the timeout produces `ok:true` with the process's exit code, whatever
that code is (the exit code is universally quantified, including nonzero
values); and `run_command` never reports `ok:false` for a completed
process — `ok:false` arises only from timeouts or spawn failures (and,
upstream, validation). -/
theorem exec_completed_ok_any_exit_code
    (allowlist : List String) (t m : Nat) (env : ProcEnv) (r : ExecReq) (b : String)
    (ec : Int) (out err : String)
    (hv : validate_command allowlist r.cmd (r.args.getD []) = .ok b)
    (hres : env.result = .completed ec out err) :
    (execHandle allowlist t m env (.req r)).1 =
      { ok := true, exit_code := some ec, stdout := some (strTruncate m out),
        stderr := some (strTruncate m err), duration_ms := some env.elapsedMs } ∧
    (∀ env' : ProcEnv, (run_command t m env').ok = false →
      ∀ ec' out' err', env'.result ≠ .completed ec' out' err') := by
  constructor
  · simp [execHandle, hv, run_command, hres]
  · intro env' hok ec' out' err' hcon
    simp [run_command, hcon] at hok

/-- Concrete completed execution exercising C7, with a nonzero exit
code. -/
theorem exec_completed_ok_any_exit_code_witness :
    validate_command DEFAULT_ALLOWLIST ({ cmd := some "ls", args := some ["-la"] } : ExecReq).cmd
      (({ cmd := some "ls", args := some ["-la"] } : ExecReq).args.getD []) = .ok "ls" ∧
    (⟨.completed 2 "" "ls: cannot access", 7⟩ : ProcEnv).result =
      .completed 2 "" "ls: cannot access" ∧
    (execHandle DEFAULT_ALLOWLIST 30 100000 ⟨.completed 2 "" "ls: cannot access", 7⟩
        (.req { cmd := some "ls", args := some ["-la"] })).1 =
      { ok := true, exit_code := some 2, stdout := some (strTruncate 100000 ""),
        stderr := some (strTruncate 100000 "ls: cannot access"), duration_ms := some 7 } :=
  ⟨by decide, rfl,
    (exec_completed_ok_any_exit_code DEFAULT_ALLOWLIST 30 100000
      ⟨.completed 2 "" "ls: cannot access", 7⟩ { cmd := some "ls", args := some ["-la"] }
      "ls" 2 "" "ls: cannot access" (by decide) rfl).1⟩

/-- C8 counterexample: the files service answers an empty request line
with the error code `"empty_request"`, which is outside the claim's
enumerated set. -/
theorem files_empty_request_code_outside_set :
    (filesHandle "/var/local/ops_files" ⟨[], []⟩ FilesInput.empty).1 =
      { ok := false, error := some "empty_request" } ∧
    ¬ ("empty_request" ∈ (["path_forbidden", "bad_base64", "io_error", "not_found",
        "validation", "unsupported_op"] : List String)) := by decide

/-- C8 (amended set): every error response written by the files service
carries an error code drawn from the enumerated set extended with the
protocol-level codes `"empty_request"` (empty request line) and
`"bad_json"` (unparsable request line), and `"handler_error"` (a fault
caught only by the handler's outermost `except`, such as a failing
`os.makedirs`). -/
theorem files_error_codes_enumerated
    (baseDir : String) (st : FsState) (inp : FilesInput)
    (hok : (filesHandle baseDir st inp).1.ok = false) :
    ∃ c, (filesHandle baseDir st inp).1.error = some c ∧
      c ∈ ["path_forbidden", "bad_base64", "io_error", "not_found", "validation",
           "unsupported_op", "empty_request", "bad_json", "handler_error"] := by
  revert hok
  cases inp with
  | empty => exact fun _ => ⟨"empty_request", rfl, by decide⟩
  | badJson msg => exact fun _ => ⟨"bad_json", rfl, by decide⟩
  | req r =>
    unfold filesHandle
    repeat' split
    all_goals intro hok
    all_goals
      first
        | exact ⟨_, rfl, by decide⟩
        | simp at hok

/-- Concrete unsupported-op request exercising C8. -/
theorem files_error_codes_enumerated_witness :
    (filesHandle "/var/local/ops_files" ⟨[], []⟩
      (.req { op := some "delete" })).1.ok = false ∧
    (∃ c, (filesHandle "/var/local/ops_files" ⟨[], []⟩
        (.req { op := some "delete" })).1.error = some c ∧
      c ∈ ["path_forbidden", "bad_base64", "io_error", "not_found", "validation",
           "unsupported_op", "empty_request", "bad_json", "handler_error"]) :=
  ⟨by decide,
    files_error_codes_enumerated "/var/local/ops_files" ⟨[], []⟩
      (.req { op := some "delete" }) (by decide)⟩

/-- C10 counterexample: at a store where the resolved parent is occupied
by a regular file, an upload whose path passes the sandbox check and
whose data field is invalid base64 is answered `"handler_error"` (the
uncaught `os.makedirs` fault), not the claimed `"bad_base64"`. -/
theorem upload_obstructed_parent_handler_error :
    safe_join "/var/local/ops_files" "sub/a.bin" =
      some "/var/local/ops_files/sub/a.bin" ∧
    b64decode "a" = none ∧
    filesHandle "/var/local/ops_files"
        ⟨["/var", "/var/local", "/var/local/ops_files"],
          [("/var/local/ops_files/sub", [1])]⟩
        (.req { op := some "upload", path := some "sub/a.bin", data := some "a" }) =
      ({ ok := false, error := some "handler_error", message := some "makedirs failed" },
        ⟨["/var", "/var/local", "/var/local/ops_files"],
          [("/var/local/ops_files/sub", [1])]⟩) ∧
    (some "handler_error" : Option String) ≠ some "bad_base64" := by decide

/-- C10 (amended to a creatable parent chain): an upload whose path
passes the sandbox check and whose resolved parent chain is not
obstructed by a regular file creates the missing parent directories
before the base64 payload is validated, so such a request with an
invalid base64 data field is answered `ok:false` with error
`"bad_base64"` while the state keeps the directories just created — when
the parent directory was absent, the state after the failed request
differs from the state before it (the error is not atomic). -/
theorem upload_bad_base64_creates_dirs
    (baseDir : String) (st st1 : FsState) (p d fp : String)
    (hp : p ≠ "") (hd : d ≠ "")
    (hsj : safe_join baseDir p = some fp)
    (hmk : mkdirs st (dirname fp) = (st1, true))
    (hbad : b64decode d = none) :
    filesHandle baseDir st (.req { op := some "upload", path := some p, data := some d }) =
      ({ ok := false, error := some "bad_base64" }, st1) ∧
    (dirname fp ∈ dirChain (dirname fp) → dirname fp ∉ st.dirs → st1 ≠ st) := by
  constructor
  · simp [filesHandle, falsy, hp, hd, hsj, hmk, hbad]
  · intro hchain hnot
    have hne := mkdirs_ne_of_missing st (dirname fp) hchain (by rw [hmk]) hnot
    rwa [hmk] at hne

/-- Concrete non-atomic failed upload exercising C10: bad base64 under a
fresh subdirectory, whose chain is created successfully. -/
theorem upload_bad_base64_creates_dirs_witness :
    "sub/a.bin" ≠ "" ∧
    "a" ≠ "" ∧
    safe_join "/var/local/ops_files" "sub/a.bin" =
      some "/var/local/ops_files/sub/a.bin" ∧
    mkdirs ⟨[], []⟩ (dirname "/var/local/ops_files/sub/a.bin") =
      (⟨["/var", "/var/local", "/var/local/ops_files", "/var/local/ops_files/sub"], []⟩,
        true) ∧
    b64decode "a" = none ∧
    (filesHandle "/var/local/ops_files" ⟨[], []⟩
        (.req { op := some "upload", path := some "sub/a.bin", data := some "a" }) =
      ({ ok := false, error := some "bad_base64" },
        ⟨["/var", "/var/local", "/var/local/ops_files", "/var/local/ops_files/sub"], []⟩) ∧
    (dirname "/var/local/ops_files/sub/a.bin" ∈
        dirChain (dirname "/var/local/ops_files/sub/a.bin") →
      dirname "/var/local/ops_files/sub/a.bin" ∉ (⟨[], []⟩ : FsState).dirs →
      (⟨["/var", "/var/local", "/var/local/ops_files", "/var/local/ops_files/sub"],
          []⟩ : FsState) ≠ ⟨[], []⟩)) :=
  ⟨by decide, by decide, by decide, by decide, by decide,
    upload_bad_base64_creates_dirs "/var/local/ops_files" ⟨[], []⟩
      ⟨["/var", "/var/local", "/var/local/ops_files", "/var/local/ops_files/sub"], []⟩
      "sub/a.bin" "a" "/var/local/ops_files/sub/a.bin"
      (by decide) (by decide) (by decide) (by decide) (by decide)⟩

end EdgeAgent
